import Mathlib

/-!
Shallow embedding of the howtocards SSI proxy (`src/main.rs`).

The program serves `GET /open/{card_id}`: it fetches card metadata from a
backend, decodes the JSON envelope, synthesizes OpenGraph/Twitter meta tags,
injects them into a static HTML shell and always answers `200 OK`.

Rust strings are modelled as Lean `String`/`List Char`; JSON values as an
inductive `Json` (the result of `serde_json` parsing); machine integers as
`Int`/`Nat` with explicit range checks where the Rust type constrains them.
Library functions the program calls (`htmlescape::encode_minimal`,
`str::replace`, the serde-derived decoders) are modelled from their
documented behaviour and marked as such.
-/

set_option maxRecDepth 100000

/-- JSON values, the output of `serde_json` parsing.  Numbers are modelled as
integers, which covers every value the program's decoders can accept (the only
numeric field, `Card.id`, is an `i32`). -/
inductive Json where
  | null : Json
  | bool : Bool → Json
  | num : Int → Json
  | str : String → Json
  | arr : List Json → Json
  | obj : List (String × Json) → Json
deriving Repr

/-- `struct Card` (main.rs lines 149-158): the upstream card record.
`id` is an `i32` in the source; the decoder enforces the range. -/
structure Card where
  title : String
  description : String
  id : Int
  created_at : String
  updated_at : String
  preview_url : Option String
deriving DecidableEq, Repr

/-- `struct CardWrapper` (main.rs lines 160-163). -/
structure CardWrapper where
  meta : Card
deriving DecidableEq, Repr

/-- `enum Answer<T>` (main.rs lines 142-147), an untagged union: the `Err`
variant is declared first, so untagged deserialization tries it first. -/
inductive Answer (T : Type) where
  | Err : Bool → String → Answer T
  | Ok : Bool → T → Answer T
deriving DecidableEq, Repr

/-- `struct Config` (main.rs lines 69-76). -/
structure Config where
  public_url : String
  image_url : String
  backend_url : String
  sitename : String
  index_html_path : String
deriving DecidableEq, Repr

/-- `struct Storage` (main.rs lines 44-47): the HTML shell, loaded once. -/
structure Storage where
  index_html : String
deriving DecidableEq, Repr

/-- `struct CardPath` (main.rs lines 137-140): the inbound path segment.
`card_id` is a `u32` in the source, hence a `Nat` below `2^32`. -/
structure CardPath where
  card_id : Nat
  card_id_lt : card_id < 2 ^ 32

/-- Models `htmlescape::encode_minimal`'s entity table: the five characters
`"` `&` `'` `<` `>` map to their minimal HTML entities, everything else is
left alone. -/
def minimal_entity (c : Char) : Option String :=
  if c = Char.ofNat 34 then some "&quot;"
  else if c = Char.ofNat 38 then some "&amp;"
  else if c = Char.ofNat 39 then some "&#x27;"
  else if c = Char.ofNat 60 then some "&lt;"
  else if c = Char.ofNat 62 then some "&gt;"
  else none

/-- One character's contribution to the escaped output. -/
def encode_char (c : Char) : List Char :=
  match minimal_entity c with
  | some e => e.data
  | none => [c]

/-- Models `htmlescape::encode_minimal`: escape each character independently. -/
def encode_minimal (s : String) : String :=
  String.mk (s.data.map encode_char).flatten

/-- `create_meta` (main.rs lines 57-67): escape both inputs and interpolate
them into the self-closing meta-tag template. -/
def create_meta (prop content : String) : String :=
  "<meta property=\"" ++ encode_minimal prop ++ "\" content=\"" ++
    encode_minimal content ++ "\" />"

/-- The `vec![...]` of tag strings built inside `Config::meta_for_card`
(main.rs lines 79-127), in source order.  The two image slots are the
`map_or` expressions: the empty string when `preview_url` is `None`. -/
def Config.card_tags (self : Config) (c : Card) : List String :=
  let public_url := self.public_url
  let title := create_meta "title" c.title
  let description := create_meta "description" c.description
  let og_sitename := create_meta "og:site_name" self.sitename
  let og_type := create_meta "og:type" "article"
  let og_title := create_meta "og:title" c.title
  let og_description := create_meta "og:description" c.description
  let og_url := create_meta "og:url" (public_url ++ "/open/" ++ toString c.id)
  let og_image := c.preview_url.elim ""
    (fun url => create_meta "og_image" (self.image_url ++ "/" ++ url))
  let og_article_published := create_meta "article:published_time" c.created_at
  let og_article_modified := create_meta "article:modified_time" c.updated_at
  let twitter_card := create_meta "twitter:card"
    (c.preview_url.elim "summary" (fun _ => "summary_large_image"))
  let twitter_site := create_meta "twitter:site" "@howtocards_io"
  let twitter_title := create_meta "twitter:title" c.title
  let twitter_description := create_meta "twitter:description" c.description
  let twitter_image := c.preview_url.elim ""
    (fun url => create_meta "twitter:image" (self.image_url ++ "/" ++ url))
  [title, description, og_sitename, og_type, og_title, og_description,
   og_url, og_image, og_article_published, og_article_modified,
   twitter_card, twitter_site, twitter_title, twitter_description,
   twitter_image]

/-- `Config::meta_for_card` (main.rs lines 79-130): fold the tag vector with
`format!("{}\n{}", acc, meta)`, starting from the empty string. -/
def Config.meta_for_card (self : Config) (c : Card) : String :=
  (self.card_tags c).foldl (fun acc meta => acc ++ "\n" ++ meta) ""

/-- `Config::backend_card_url` (main.rs lines 132-134). -/
def Config.backend_card_url (self : Config) (card_id : Nat) : String :=
  self.backend_url ++ "/api/cards/" ++ toString card_id ++ "/meta/"

example : encode_minimal "a<b" = "a&lt;b" := by decide
example : create_meta "x" "a\"b" = "<meta property=\"x\" content=\"a&quot;b\" />" := by decide

/-- Field lookup in a JSON object (first occurrence wins; serde rejects
duplicate keys, which the program never relies on, so bodies with duplicate
keys are modelled by their first binding). -/
def jGet (fields : List (String × Json)) (name : String) : Option Json :=
  (fields.find? (fun kv => kv.1 == name)).map (fun kv => kv.2)

/-- serde decode of a `bool` field. -/
def asBool : Json → Option Bool
  | Json.bool b => some b
  | _ => none

/-- serde decode of a `String` field. -/
def asStr : Json → Option String
  | Json.str s => some s
  | _ => none

/-- serde decode of an `i32` field: an integer JSON number in range. -/
def asI32 : Json → Option Int
  | Json.num n => if -(2 ^ 31) ≤ n ∧ n < 2 ^ 31 then some n else none
  | _ => none

/-- serde decode of an `Option<String>` field: absent or `null` is `None`, a
string is `Some`, any other value is a decode error. -/
def asOptStr : Option Json → Option (Option String)
  | none => some none
  | some Json.null => some none
  | some (Json.str s) => some (some s)
  | some _ => none

/-- serde-derived decoder for `Card` (camelCase keys, unknown fields
ignored, `previewUrl` optional). -/
def decodeCard : Json → Option Card
  | Json.obj fields => do
    let title ← jGet fields "title" >>= asStr
    let description ← jGet fields "description" >>= asStr
    let idv ← jGet fields "id" >>= asI32
    let created_at ← jGet fields "createdAt" >>= asStr
    let updated_at ← jGet fields "updatedAt" >>= asStr
    let preview_url ← asOptStr (jGet fields "previewUrl")
    pure { title := title, description := description, id := idv,
           created_at := created_at, updated_at := updated_at,
           preview_url := preview_url }
  | _ => none

/-- serde-derived decoder for `CardWrapper`. -/
def decodeCardWrapper : Json → Option CardWrapper
  | Json.obj fields => do
    let m ← jGet fields "meta" >>= decodeCard
    pure { meta := m }
  | _ => none

/-- Untagged attempt at the `Answer::Err` variant: needs an `ok` boolean and
an `error` string (extra fields ignored). -/
def decodeAnswerErrVariant : Json → Option (Answer CardWrapper)
  | Json.obj fields => do
    let okFlag ← jGet fields "ok" >>= asBool
    let msg ← jGet fields "error" >>= asStr
    pure (Answer.Err okFlag msg)
  | _ => none

/-- Untagged attempt at the `Answer::Ok` variant: needs an `ok` boolean and a
`result` decoding as `CardWrapper` (extra fields ignored). -/
def decodeAnswerOkVariant : Json → Option (Answer CardWrapper)
  | Json.obj fields => do
    let okFlag ← jGet fields "ok" >>= asBool
    let result ← jGet fields "result" >>= decodeCardWrapper
    pure (Answer.Ok okFlag result)
  | _ => none

/-- serde's `#[serde(untagged)]` decoder for `Answer<CardWrapper>`: variants
are tried in declaration order, `Err` first (main.rs lines 142-147). -/
def deserAnswer (j : Json) : Option (Answer CardWrapper) :=
  (decodeAnswerErrVariant j).orElse (fun _ => decodeAnswerOkVariant j)

/-- Models Rust `str::replace` scanning with a nonempty pattern: at each
position either the pattern matches (emit `rep`, then skip the remaining
`pat.length - 1` matched characters via the counter) or the character is
copied.  Structural recursion on the text keeps the model kernel-evaluable. -/
def replaceAllAux (pat rep : List Char) : Nat → List Char → List Char
  | _, [] => []
  | 0, c :: rest =>
    if pat.isPrefixOf (c :: rest) then
      rep ++ replaceAllAux pat rep (pat.length - 1) rest
    else
      c :: replaceAllAux pat rep 0 rest
  | skip + 1, _ :: rest => replaceAllAux pat rep skip rest

/-- Models Rust `str::replace`: replace every non-overlapping occurrence of
`pat` in `s` by `rep`, scanning left to right.  (The program only ever calls
this with the nonempty pattern `"</head>"`; Rust's empty-pattern behaviour is
out of scope.) -/
def rustReplace (s pat rep : String) : String :=
  match pat.data with
  | [] => s
  | _ :: _ => String.mk (replaceAllAux pat.data rep.data 0 s.data)

/-- The injection step of the handler (main.rs lines 198-206):
`index_html.replace("</head>", format!("{}</head>", html))`. -/
def inject (shell html : String) : String :=
  rustReplace shell "</head>" (html ++ "</head>")

/-- Split on every non-overlapping occurrence of `pat`, same scan as
`replaceAllAux`; used to state what `inject` does to a shell. -/
def splitOnAux (pat : List Char) : Nat → List Char → List (List Char)
  | _, [] => [[]]
  | 0, c :: rest =>
    if pat.isPrefixOf (c :: rest) then
      [] :: splitOnAux pat (pat.length - 1) rest
    else
      match splitOnAux pat 0 rest with
      | [] => [[c]]
      | g :: gs => (c :: g) :: gs
  | skip + 1, _ :: rest => splitOnAux pat skip rest

/-- Join pieces with a separator between consecutive pieces. -/
def joinWith (sep : List Char) : List (List Char) → List Char
  | [] => []
  | [g] => g
  | g :: g2 :: gs => g ++ sep ++ joinWith sep (g2 :: gs)

/-- Count the non-overlapping occurrences of `pat`, same scan as
`replaceAllAux`. -/
def countOccAux (pat : List Char) : Nat → List Char → Nat
  | _, [] => 0
  | 0, c :: rest =>
    if pat.isPrefixOf (c :: rest) then
      1 + countOccAux pat (pat.length - 1) rest
    else
      countOccAux pat 0 rest
  | skip + 1, _ :: rest => countOccAux pat skip rest

/-- Number of non-overlapping occurrences of `pat` in `s` (left to right). -/
def countOcc (s pat : String) : Nat :=
  match pat.data with
  | [] => 0
  | _ :: _ => countOccAux pat.data 0 s.data

/-- The upstream interaction of one request, as seen by the handler chain
(main.rs lines 172-182): either the transport/body-collection stage failed,
or a full body was collected — represented by the result of `serde_json`
parsing its bytes (`none` = the bytes are not a JSON value). -/
inductive Upstream where
  | failure : Upstream
  | body : Option Json → Upstream

/-- The parts of the HTTP response the handler determines. -/
structure Response where
  status : Nat
  content_type : String
  body : String
deriving DecidableEq, Repr

/-- The `or_else` arm (main.rs lines 207-216): log and serve the unmodified
shell with `200 OK`. -/
def fallback_response (storage : Storage) : Response :=
  { status := 200, content_type := "text/html; charset=utf-8",
    body := storage.index_html }

/-- The body-decoding `and_then` closure (main.rs lines 183-190): run the
serde decode (`parsed.bind deserAnswer` models
`serde_json::from_slice::<Answer<CardWrapper>>`), return `Ok(Some(meta))`
for the success variant and `Ok(None)` for everything else. -/
def decode_body (parsed : Option Json) : Except String (Option Card) :=
  match parsed.bind deserAnswer with
  | some (Answer.Ok _ result) => Except.ok (some result.meta)
  | _ => Except.ok none

/-- The card the decode step extracts from a response body, if any. -/
def card_of_body (parsed : Option Json) : Option Card :=
  match parsed.bind deserAnswer with
  | some (Answer.Ok _ result) => some result.meta
  | _ => none

/-- The handler `card` (main.rs lines 165-217) for one request, given the
upstream outcome.  A decode-stage error would flow to `or_else` like a
transport error; the success chain synthesizes the fragment (placeholder
`"<div></div>"` when no card was decoded), injects it into the shell and
responds `200 OK`. -/
def card (config : Config) (storage : Storage) (up : Upstream) : Response :=
  match up with
  | Upstream.failure => fallback_response storage
  | Upstream.body parsed =>
    match decode_body parsed with
    | Except.error _ => fallback_response storage
    | Except.ok decoded =>
      let html := match decoded with
        | some c => config.meta_for_card c
        | none => "<div></div>"
      { status := 200, content_type := "text/html; charset=utf-8",
        body := inject storage.index_html html }

/-- The route table (main.rs lines 37-38): both the plain and the
trailing-slash pattern are served by the same handler `card`. -/
def route_handlers : List (String × (Config → Storage → Upstream → Response)) :=
  [("/open/\x7bcard_id\x7d", card), ("/open/\x7bcard_id\x7d/", card)]

theorem splitOnAux_ne_nil (pat : List Char) (skip : Nat) (s : List Char) :
    splitOnAux pat skip s ≠ [] := by
  induction s generalizing skip with
  | nil => simp [splitOnAux]
  | cons c rest ih =>
    cases skip with
    | zero =>
      by_cases hp : pat.isPrefixOf (c :: rest)
      · simp [splitOnAux, hp]
      · cases hsp : splitOnAux pat 0 rest with
        | nil => simp [splitOnAux, hp, hsp]
        | cons g gs => simp [splitOnAux, hp, hsp]
    | succ k => simpa [splitOnAux] using ih k

theorem replaceAllAux_eq_joinWith (pat rep : List Char) (s : List Char)
    (skip : Nat) :
    replaceAllAux pat rep skip s = joinWith rep (splitOnAux pat skip s) := by
  induction s generalizing skip with
  | nil => simp [replaceAllAux, splitOnAux, joinWith]
  | cons c rest ih =>
    cases skip with
    | zero =>
      by_cases hp : pat.isPrefixOf (c :: rest)
      · cases hsp : splitOnAux pat (pat.length - 1) rest with
        | nil => exact absurd hsp (splitOnAux_ne_nil pat _ rest)
        | cons g gs =>
          simp [replaceAllAux, splitOnAux, hp, hsp, joinWith, ih]
      · cases hsp : splitOnAux pat 0 rest with
        | nil => exact absurd hsp (splitOnAux_ne_nil pat 0 rest)
        | cons g gs =>
          cases gs with
          | nil => simp [replaceAllAux, splitOnAux, hp, hsp, joinWith, ih]
          | cons g2 gs2 =>
            simp [replaceAllAux, splitOnAux, hp, hsp, joinWith, ih]
    | succ k => simp [replaceAllAux, splitOnAux, ih]

theorem joinWith_splitOnAux (pat : List Char) (hne : pat ≠ [])
    (s : List Char) (skip : Nat) :
    joinWith pat (splitOnAux pat skip s) = s.drop skip := by
  induction s generalizing skip with
  | nil => simp [splitOnAux, joinWith]
  | cons c rest ih =>
    cases skip with
    | zero =>
      by_cases hp : pat.isPrefixOf (c :: rest)
      · cases hsp : splitOnAux pat (pat.length - 1) rest with
        | nil => exact absurd hsp (splitOnAux_ne_nil pat _ rest)
        | cons g gs =>
          obtain ⟨p, ps, rfl⟩ : ∃ p ps, pat = p :: ps := by
            cases pat with
            | nil => exact absurd rfl hne
            | cons p ps => exact ⟨p, ps, rfl⟩
          have hpre : (p :: ps) <+: (c :: rest) :=
            List.isPrefixOf_iff_prefix.mp hp
          obtain ⟨t, ht⟩ := hpre
          have hc : p = c := by
            have := congrArg (fun l => l.headI) ht
            simpa using this
          have hrest : ps ++ t = rest := by
            have := congrArg List.tail ht
            simpa using this
          have hdrop : rest.drop ((p :: ps).length - 1) = t := by
            rw [← hrest]
            simp [List.drop_left]
          have hjoin : joinWith (p :: ps) (g :: gs) = t := by
            have := ih ((p :: ps).length - 1)
            rw [hsp] at this
            rw [this, hdrop]
          simp only [splitOnAux, hp, if_pos, hsp, joinWith, List.nil_append,
            List.drop_zero]
          rw [hjoin, hc, ← ht, hc]
      · cases hsp : splitOnAux pat 0 rest with
        | nil => exact absurd hsp (splitOnAux_ne_nil pat 0 rest)
        | cons g gs =>
          have hjoin : joinWith pat (g :: gs) = rest := by
            have := ih 0
            rw [hsp] at this
            simpa using this
          cases gs with
          | nil => simp [splitOnAux, hp, hsp, joinWith, hjoin] at hjoin ⊢; simp [hjoin]
          | cons g2 gs2 =>
            simp only [splitOnAux, hp, hsp, joinWith, List.drop_zero]
            simp only [joinWith] at hjoin
            simp [hjoin]
    | succ k => simp [splitOnAux, ih]

/-- A sample site configuration, used to instantiate theorems. -/
def sampleConfig : Config :=
  { public_url := "https://howtocards.io", image_url := "https://cdn.howtocards.io",
    backend_url := "https://api.howtocards.io", sitename := "HowToCards",
    index_html_path := "dist/index.html" }

/-- A sample shell containing one closing-head marker. -/
def sampleShell : Storage :=
  { index_html := "<html><head><title>app</title></head><body></body></html>" }

/-- The backend error envelope of end-to-end scenario C. -/
def errEnvelope : Json :=
  Json.obj [("ok", Json.bool false), ("error", Json.str "not found")]

/-- The JSON of a full card record with a preview image. -/
def metaJson : Json :=
  Json.obj [("title", Json.str "T"), ("description", Json.str "D"),
    ("id", Json.num 5), ("createdAt", Json.str "2020-01-01"),
    ("updatedAt", Json.str "2020-01-02"), ("previewUrl", Json.str "img.png")]

/-- The card record `metaJson` decodes to. -/
def sampleCard : Card :=
  { title := "T", description := "D", id := 5, created_at := "2020-01-01",
    updated_at := "2020-01-02", preview_url := some "img.png" }

/-- The same card without a preview image. -/
def sampleCardNoPreview : Card :=
  { title := "T", description := "D", id := 5, created_at := "2020-01-01",
    updated_at := "2020-01-02", preview_url := none }

/-- A body whose success flag is `false` but which carries a `result` field:
`{"ok": false, "result": {"meta": ...}}`. -/
def okFalseBody : Json :=
  Json.obj [("ok", Json.bool false), ("result", Json.obj [("meta", metaJson)])]

theorem decode_body_eq_ok (parsed : Option Json) :
    decode_body parsed = Except.ok (card_of_body parsed) := by
  cases h : parsed.bind deserAnswer with
  | none => simp [decode_body, card_of_body, h]
  | some a =>
    cases a with
    | Err b e => simp [decode_body, card_of_body, h]
    | Ok b r => simp [decode_body, card_of_body, h]

theorem card_status_content (cfg : Config) (st : Storage) (up : Upstream) :
    (card cfg st up).status = 200
    ∧ (card cfg st up).content_type = "text/html; charset=utf-8" := by
  cases up with
  | failure => exact ⟨rfl, rfl⟩
  | body parsed => simp [card, decode_body_eq_ok, fallback_response]

/-- C10: the body-decoding step is total — it returns `Ok` on every response
body (the decoded card for a success envelope, `None` otherwise) — so the
fallback branch serving the unmodified shell is reached only on transport
failures; decode failures and error envelopes proceed through the injection
path, with the placeholder fragment `<div></div>` when no card was decoded. -/
theorem decode_total_and_placeholder_path (cfg : Config) (st : Storage)
    (parsed : Option Json) :
    decode_body parsed = Except.ok (card_of_body parsed)
    ∧ card cfg st (Upstream.body parsed) =
        { status := 200, content_type := "text/html; charset=utf-8",
          body := inject st.index_html
            (match card_of_body parsed with
             | some c => cfg.meta_for_card c
             | none => "<div></div>") } := by
  refine ⟨decode_body_eq_ok parsed, ?_⟩
  simp [card, decode_body_eq_ok]

/-- C7: every request routed to either `/open/\x7bcard_id\x7d` pattern (with
or without trailing slash) gets status `200` and content type
`text/html; charset=utf-8`, on the success path and on every failure path
alike. -/
theorem routes_always_200_html
    (entry : String × (Config → Storage → Upstream → Response))
    (hmem : entry ∈ route_handlers) (cfg : Config) (st : Storage)
    (up : Upstream) :
    (entry.2 cfg st up).status = 200
    ∧ (entry.2 cfg st up).content_type = "text/html; charset=utf-8" := by
  have h2 : entry = ("/open/\x7bcard_id\x7d", card)
      ∨ entry = ("/open/\x7bcard_id\x7d/", card) := by
    simpa [route_handlers] using hmem
  rcases h2 with rfl | rfl <;> exact card_status_content cfg st up

/-- Witness for C7 at a concrete route entry, configuration and upstream
outcome. -/
theorem routes_always_200_html_witness :
    (card sampleConfig sampleShell Upstream.failure).status = 200
    ∧ (card sampleConfig sampleShell Upstream.failure).content_type
        = "text/html; charset=utf-8" :=
  routes_always_200_html ("/open/\x7bcard_id\x7d", card) (List.Mem.head _)
    sampleConfig sampleShell Upstream.failure

/-- C1 amended: a transport failure is answered `200` with the unmodified
shell byte-for-byte; a backend error envelope or a body that decodes as
neither envelope shape is answered `200` with the shell with the placeholder
`<div></div>` injected before each `</head>` marker (identical to the shell
only when the shell lacks the marker). -/
theorem transport_fallback_and_placeholder_injection (cfg : Config)
    (st : Storage) :
    (card cfg st Upstream.failure).status = 200
    ∧ (card cfg st Upstream.failure).body = st.index_html
    ∧ ∀ parsed : Option Json, card_of_body parsed = none →
        (card cfg st (Upstream.body parsed)).body
          = inject st.index_html "<div></div>" := by
  refine ⟨rfl, rfl, fun parsed h => ?_⟩
  simp [card, decode_body_eq_ok, h]

/-- Witness for C1's amended theorem: the error envelope of scenario C takes
the placeholder-injection path, and a transport failure serves the shell. -/
theorem transport_fallback_and_placeholder_injection_witness :
    (card sampleConfig sampleShell Upstream.failure).body
        = sampleShell.index_html
    ∧ (card sampleConfig sampleShell (Upstream.body (some errEnvelope))).body
        = inject sampleShell.index_html "<div></div>" := by
  obtain ⟨-, h1, h2⟩ :=
    transport_fallback_and_placeholder_injection sampleConfig sampleShell
  exact ⟨h1, h2 (some errEnvelope) (by decide)⟩

/-- C1 counterexample: on the backend error envelope
`\x7b"ok":false,"error":"not found"\x7d` (scenario C), the response body is
the shell with `<div></div>` injected — not byte-for-byte identical to the
unmodified shell. -/
theorem error_envelope_body_differs_from_shell :
    (card sampleConfig sampleShell (Upstream.body (some errEnvelope))).body
        = "<html><head><title>app</title><div></div></head><body></body></html>"
    ∧ (card sampleConfig sampleShell (Upstream.body (some errEnvelope))).body
        ≠ sampleShell.index_html := by
  constructor <;> decide

/-- C2 counterexample: on a shell containing the marker twice, `inject`
inserts the fragment before both markers — the fragment appears twice, not
exactly once. -/
theorem inject_duplicates_fragment_at_second_marker :
    inject "</head></head>" "F" = "F</head>F</head>"
    ∧ countOcc "</head></head>" "</head>" = 2
    ∧ countOcc "F</head>F</head>" "F" = 2 := by
  refine ⟨?_, ?_, ?_⟩ <;> decide

/-- C2 amended: `inject` replaces every non-overlapping occurrence of the
literal closing-head marker, scanning left to right: the output is the
marker-separated pieces of the shell rejoined with `fragment ++ marker` at
each occurrence (so each marker is preserved and the fragment is inserted
immediately before each one, not only the first). -/
theorem inject_inserts_fragment_before_every_marker (shell frag : String) :
    (inject shell frag).data
        = joinWith (frag.data ++ "</head>".data)
            (splitOnAux "</head>".data 0 shell.data)
    ∧ shell.data
        = joinWith "</head>".data (splitOnAux "</head>".data 0 shell.data) := by
  constructor
  · have h1 : (inject shell frag).data
        = replaceAllAux "</head>".data (frag ++ "</head>").data 0 shell.data :=
      rfl
    rw [h1, replaceAllAux_eq_joinWith]
    simp
  · have h := joinWith_splitOnAux "</head>".data (by decide) shell.data 0
    simpa using h.symm

/-- C3 counterexample: the body `\x7b"ok": false, "result": \x7b"meta": ...\x7d\x7d`
decodes as the success variant (the untagged decoder never consults the `ok`
flag), a card record is produced, and the handler performs tag synthesis —
the outcome is a success, not a failure. -/
theorem ok_false_with_result_decodes_as_success :
    deserAnswer okFalseBody = some (Answer.Ok false { meta := sampleCard })
    ∧ card_of_body (some okFalseBody) = some sampleCard
    ∧ (card sampleConfig sampleShell (Upstream.body (some okFalseBody))).body
        = inject sampleShell.index_html
            (sampleConfig.meta_for_card sampleCard) := by
  have h : card_of_body (some okFalseBody) = some sampleCard := by decide
  refine ⟨by decide, h, ?_⟩
  simp [card, decode_body_eq_ok, h]

/-- C3 amended: envelope discrimination is purely structural and the decoded
`ok` flag is never consulted: whenever the body decodes to the `Ok` variant —
whatever the flag's value, including `false` — the decode step produces the
inner card record; whenever it decodes to the `Err` variant, no card is
produced (there is no `BackendRejected` error value: the handler proceeds
with the placeholder fragment). -/
theorem answer_discrimination_is_structural (parsed : Option Json) (b : Bool) :
    (∀ w : CardWrapper,
        parsed.bind deserAnswer = some (Answer.Ok b w) →
          decode_body parsed = Except.ok (some w.meta))
    ∧ (∀ e : String,
        parsed.bind deserAnswer = some (Answer.Err b e) →
          decode_body parsed = Except.ok none) := by
  constructor
  · intro w h
    simp [decode_body, h]
  · intro e h
    simp [decode_body, h]

/-- Witness for C3's amended theorem: the success variant decoded from
`okFalseBody` carries the flag `false`, and the decode step still produces
the card. -/
theorem answer_discrimination_is_structural_witness :
    decode_body (some okFalseBody) = Except.ok (some sampleCard) :=
  (answer_discrimination_is_structural (some okFalseBody) false).1
    { meta := sampleCard } (by decide)

/-- Whether `pat` occurs as a contiguous subsequence of the list. -/
def containsSeq (pat : List Char) : List Char → Bool
  | [] => pat.isEmpty
  | c :: rest => pat.isPrefixOf (c :: rest) || containsSeq pat rest

/-- C4: evaluation at the failing input.  For a card with a preview image the
emitted image tag's property name is the misspelled `og_image` (main.rs line
91) with the expected `\x7bimage_url\x7d/\x7bpreview_url\x7d` content, and no
tag in the output carries the property name `og:image` that the spec (and the
OpenGraph convention every sibling tag follows) requires. -/
theorem og_image_property_misspelled :
    create_meta "og_image" (sampleConfig.image_url ++ "/" ++ "img.png")
        ∈ sampleConfig.card_tags sampleCard
    ∧ containsSeq "property=\"og_image\"".data
        (sampleConfig.meta_for_card sampleCard).data = true
    ∧ (sampleConfig.card_tags sampleCard).all
        (fun t => !(containsSeq "property=\"og:image\"".data t.data))
      = true := by
  refine ⟨?_, ?_, ?_⟩ <;> decide

/-- C5 counterexample: with `previewUrl` absent, the joined fragment contains
a blank line — two consecutive newlines at the omitted `og:image` slot — and
even ends with a newline at the omitted `twitter:image` slot, so the omitted
tags do contribute blank lines and the tags are not joined by single newline
separators only. -/
theorem fragment_without_preview_has_blank_line :
    "\n\n".data <:+: (sampleConfig.meta_for_card sampleCardNoPreview).data
    ∧ (sampleConfig.meta_for_card sampleCardNoPreview).data.getLast?
        = some '\n' := by
  constructor <;> decide

/-- C5 amended: when `previewUrl` is absent no image tag is emitted at all —
in particular no tag with empty content — but the two image slots still
contribute empty strings to the fold, so the fragment is the newline-prefixed
join with a blank line at the `og:image` slot and a trailing newline at the
`twitter:image` slot. -/
theorem fragment_shape_without_preview (cfg : Config) (t d ca ua : String)
    (n : Int) :
    cfg.meta_for_card
        { title := t, description := d, id := n,
          created_at := ca, updated_at := ua, preview_url := none }
      = "\n" ++ create_meta "title" t
        ++ "\n" ++ create_meta "description" d
        ++ "\n" ++ create_meta "og:site_name" cfg.sitename
        ++ "\n" ++ create_meta "og:type" "article"
        ++ "\n" ++ create_meta "og:title" t
        ++ "\n" ++ create_meta "og:description" d
        ++ "\n" ++ create_meta "og:url" (cfg.public_url ++ "/open/" ++ toString n)
        ++ "\n"
        ++ "\n" ++ create_meta "article:published_time" ca
        ++ "\n" ++ create_meta "article:modified_time" ua
        ++ "\n" ++ create_meta "twitter:card" "summary"
        ++ "\n" ++ create_meta "twitter:site" "@howtocards_io"
        ++ "\n" ++ create_meta "twitter:title" t
        ++ "\n" ++ create_meta "twitter:description" d
        ++ "\n" := by
  apply String.ext
  simp [Config.meta_for_card, Config.card_tags, Option.elim, List.foldl,
    String.data_append, List.append_assoc,
    show ("" : String).data = [] from rfl]

theorem create_meta_ne_empty (p c : String) : create_meta p c ≠ "" := by
  intro h
  have hlen := congrArg String.length h
  simp only [create_meta, String.length_append] at hlen
  have h1 : ("<meta property=\"" : String).length = 16 := by decide
  have h2 : ("\" content=\"" : String).length = 11 := by decide
  have h3 : ("\" />" : String).length = 4 := by decide
  have h0 : ("" : String).length = 0 := by decide
  rw [h1, h2, h3, h0] at hlen
  omega

theorem create_meta_bne_empty (p c : String) :
    (create_meta p c != "") = true := by
  simp only [bne_iff_ne, ne_eq]
  exact create_meta_ne_empty p c

/-- C6: for every configuration and card, the nonempty tags `meta_for_card`
emits are exactly the 13 unconditional tags in the fixed order — title,
description, og:site_name, og:type, og:title, og:description, og:url,
article:published_time, article:modified_time, twitter:card, twitter:site,
twitter:title, twitter:description — plus the two image-dependent tags, at
the og-image and twitter-image slots, if and only if `previewUrl` is
present. -/
theorem tags_cardinality_and_order (cfg : Config) (c : Card) :
    (cfg.card_tags c).filter (fun t => t != "")
      = match c.preview_url with
        | none =>
          [create_meta "title" c.title,
           create_meta "description" c.description,
           create_meta "og:site_name" cfg.sitename,
           create_meta "og:type" "article",
           create_meta "og:title" c.title,
           create_meta "og:description" c.description,
           create_meta "og:url" (cfg.public_url ++ "/open/" ++ toString c.id),
           create_meta "article:published_time" c.created_at,
           create_meta "article:modified_time" c.updated_at,
           create_meta "twitter:card" "summary",
           create_meta "twitter:site" "@howtocards_io",
           create_meta "twitter:title" c.title,
           create_meta "twitter:description" c.description]
        | some url =>
          [create_meta "title" c.title,
           create_meta "description" c.description,
           create_meta "og:site_name" cfg.sitename,
           create_meta "og:type" "article",
           create_meta "og:title" c.title,
           create_meta "og:description" c.description,
           create_meta "og:url" (cfg.public_url ++ "/open/" ++ toString c.id),
           create_meta "og_image" (cfg.image_url ++ "/" ++ url),
           create_meta "article:published_time" c.created_at,
           create_meta "article:modified_time" c.updated_at,
           create_meta "twitter:card" "summary_large_image",
           create_meta "twitter:site" "@howtocards_io",
           create_meta "twitter:title" c.title,
           create_meta "twitter:description" c.description,
           create_meta "twitter:image" (cfg.image_url ++ "/" ++ url)] := by
  cases hp : c.preview_url with
  | none =>
    simp [Config.card_tags, hp, Option.elim, List.filter,
      create_meta_bne_empty]
  | some url =>
    simp [Config.card_tags, hp, Option.elim, List.filter,
      create_meta_bne_empty]

/-- One of the four characters that must never appear raw inside an emitted
attribute value: `"`, the apostrophe, `<`, `>`. -/
def is_special (c : Char) : Bool :=
  c == Char.ofNat 34 || c == Char.ofNat 39 || c == '<' || c == '>'

/-- No raw occurrence of `"`, the apostrophe, `<` or `>` in the character
list. -/
def no_raw_specials (l : List Char) : Bool :=
  l.all (fun c => !(is_special c))

/-- Every `&` in the list begins one of the five entities the escaper can
emit, so no `&` is a raw, unescaped occurrence. -/
def amps_escaped : List Char → Bool
  | [] => true
  | c :: rest =>
    if c = '&' then
      (["amp;".data, "lt;".data, "gt;".data, "quot;".data, "#x27;".data].any
          (fun e => e.isPrefixOf rest))
        && amps_escaped rest
    else amps_escaped rest

theorem encode_char_no_specials (c : Char) :
    no_raw_specials (encode_char c) = true := by
  by_cases h34 : c = Char.ofNat 34
  · rw [show encode_char c = "&quot;".data by
      simp [encode_char, minimal_entity, h34]]
    decide
  by_cases h38 : c = '&'
  · rw [show encode_char c = "&amp;".data by
      simp [encode_char, minimal_entity, h34, h38]]
    decide
  by_cases h39 : c = Char.ofNat 39
  · rw [show encode_char c = "&#x27;".data by
      simp [encode_char, minimal_entity, h34, h38, h39]]
    decide
  by_cases h60 : c = '<'
  · rw [show encode_char c = "&lt;".data by
      simp [encode_char, minimal_entity, h34, h38, h39, h60]]
    decide
  by_cases h62 : c = '>'
  · rw [show encode_char c = "&gt;".data by
      simp [encode_char, minimal_entity, h34, h38, h39, h60, h62]]
    decide
  rw [show encode_char c = [c] by
    simp [encode_char, minimal_entity, h34, h38, h39, h60, h62]]
  simp [no_raw_specials, is_special, beq_iff_eq, h34, h39, h60, h62]

theorem encode_char_amps (c : Char) (l : List Char)
    (hl : amps_escaped l = true) :
    amps_escaped (encode_char c ++ l) = true := by
  by_cases h34 : c = Char.ofNat 34
  · rw [show encode_char c = "&quot;".data by
      simp [encode_char, minimal_entity, h34]]
    simpa [amps_escaped, List.isPrefixOf] using hl
  by_cases h38 : c = '&'
  · rw [show encode_char c = "&amp;".data by
      simp [encode_char, minimal_entity, h34, h38]]
    simpa [amps_escaped, List.isPrefixOf] using hl
  by_cases h39 : c = Char.ofNat 39
  · rw [show encode_char c = "&#x27;".data by
      simp [encode_char, minimal_entity, h34, h38, h39]]
    simpa [amps_escaped, List.isPrefixOf] using hl
  by_cases h60 : c = '<'
  · rw [show encode_char c = "&lt;".data by
      simp [encode_char, minimal_entity, h34, h38, h39, h60]]
    simpa [amps_escaped, List.isPrefixOf] using hl
  by_cases h62 : c = '>'
  · rw [show encode_char c = "&gt;".data by
      simp [encode_char, minimal_entity, h34, h38, h39, h60, h62]]
    simpa [amps_escaped, List.isPrefixOf] using hl
  rw [show encode_char c = [c] by
    simp [encode_char, minimal_entity, h34, h38, h39, h60, h62]]
  simpa [amps_escaped, h38] using hl

theorem encode_minimal_no_specials (s : String) :
    no_raw_specials (encode_minimal s).data = true := by
  show no_raw_specials (s.data.map encode_char).flatten = true
  induction s.data with
  | nil => decide
  | cons c rest ih =>
    simp only [List.map_cons, List.flatten_cons, no_raw_specials,
      List.all_append] at ih ⊢
    have h1 := encode_char_no_specials c
    simp only [no_raw_specials] at h1
    simp [h1, ih]

theorem encode_minimal_amps (s : String) :
    amps_escaped (encode_minimal s).data = true := by
  show amps_escaped (s.data.map encode_char).flatten = true
  induction s.data with
  | nil => decide
  | cons c rest ih =>
    simp only [List.map_cons, List.flatten_cons]
    exact encode_char_amps c _ ih

/-- C8: `create_meta` is total, escapes both the property and the content
before interpolating them into the single self-closing tag template, is not
newline-terminated (its last character is `>`), and for every input the
escaped attribute values contain no raw `"`, apostrophe, `<` or `>` and no
unescaped `&` (every `&` begins an entity). -/
theorem create_meta_escapes (p c : String) :
    create_meta p c
        = "<meta property=\"" ++ encode_minimal p ++ "\" content=\""
            ++ encode_minimal c ++ "\" />"
    ∧ no_raw_specials (encode_minimal p).data = true
    ∧ amps_escaped (encode_minimal p).data = true
    ∧ no_raw_specials (encode_minimal c).data = true
    ∧ amps_escaped (encode_minimal c).data = true
    ∧ (create_meta p c).data.getLast? = some '>' := by
  refine ⟨rfl, encode_minimal_no_specials p, encode_minimal_amps p,
    encode_minimal_no_specials c, encode_minimal_amps c, ?_⟩
  have h0 : ("\" />" : String) = "\" /" ++ ">" := by decide
  have h1 : create_meta p c
      = ("<meta property=\"" ++ encode_minimal p ++ "\" content=\""
          ++ encode_minimal c ++ "\" /") ++ ">" := by
    rw [create_meta.eq_def, h0, ← String.append_assoc]
  rw [h1, String.data_append]
  rw [show (">" : String).data = ['>'] from rfl]
  exact List.getLast?_concat _

/-- The JSON of a card record with the negative id `-5` and no preview. -/
def negCardJson : Json :=
  Json.obj [("title", Json.str "T"), ("description", Json.str "D"),
    ("id", Json.num (-5)), ("createdAt", Json.str "2020-01-01"),
    ("updatedAt", Json.str "2020-01-02")]

/-- The card record `negCardJson` decodes to. -/
def negCard : Card :=
  { title := "T", description := "D", id := -5, created_at := "2020-01-01",
    updated_at := "2020-01-02", preview_url := none }

/-- C9: the decoder accepts `meta.id` as a signed 32-bit integer although the
inbound `card_id` path segment is unsigned: every success body whose `id` is
a negative in-range integer decodes (both at the card level and through the
untagged envelope), and the emitted `og:url` tag's content is
`\x7bpublic_url\x7d/open/\x7bid\x7d` with the negative id rendered. -/
theorem negative_id_decodes_and_renders (t d ca ua : String) (n : Int)
    (h1 : -(2 ^ 31) ≤ n) (h2 : n < 0) (cfg : Config) :
    decodeCard (Json.obj [("title", Json.str t), ("description", Json.str d),
        ("id", Json.num n), ("createdAt", Json.str ca),
        ("updatedAt", Json.str ua)])
      = some { title := t, description := d, id := n, created_at := ca,
               updated_at := ua, preview_url := none }
    ∧ deserAnswer (Json.obj [("ok", Json.bool true),
        ("result", Json.obj [("meta",
          Json.obj [("title", Json.str t), ("description", Json.str d),
            ("id", Json.num n), ("createdAt", Json.str ca),
            ("updatedAt", Json.str ua)])])])
      = some (Answer.Ok true
          { meta :=
            { title := t, description := d, id := n, created_at := ca,
              updated_at := ua, preview_url := none } })
    ∧ create_meta "og:url" (cfg.public_url ++ "/open/" ++ toString n)
        ∈ cfg.card_tags
            { title := t, description := d, id := n, created_at := ca,
              updated_at := ua, preview_url := none } := by
  have h1' : (-2147483648 : Int) ≤ n := by
    have := h1
    norm_num at this
    exact this
  have hn : (n : Int) < 2147483648 := lt_of_lt_of_le h2 (by norm_num)
  have hdec : decodeCard (Json.obj [("title", Json.str t),
      ("description", Json.str d), ("id", Json.num n),
      ("createdAt", Json.str ca), ("updatedAt", Json.str ua)])
      = some { title := t, description := d, id := n, created_at := ca,
               updated_at := ua, preview_url := none } := by
    simp [decodeCard, jGet, List.find?, asStr, asI32, asOptStr, h1', hn]
  refine ⟨hdec, ?_, ?_⟩
  · simp [deserAnswer, decodeAnswerErrVariant, decodeAnswerOkVariant,
      decodeCardWrapper, jGet, List.find?, asBool, asStr, Option.orElse,
      hdec]
  · simp [Config.card_tags, Option.elim]

/-- Witness for C9 at the concrete id `-5`. -/
theorem negative_id_decodes_and_renders_witness :
    decodeCard negCardJson = some negCard
    ∧ deserAnswer (Json.obj [("ok", Json.bool true),
        ("result", Json.obj [("meta", negCardJson)])])
      = some (Answer.Ok true { meta := negCard })
    ∧ create_meta "og:url" (sampleConfig.public_url ++ "/open/"
          ++ toString (-5 : Int))
        ∈ sampleConfig.card_tags negCard :=
  negative_id_decodes_and_renders "T" "D" "2020-01-01" "2020-01-02" (-5)
    (by norm_num) (by norm_num) sampleConfig
